/-
Verification of the pix-historial quote-tracking service.

Shallow embedding of the Python source under `app/`:
  * `app/models.py`    — Quote, Exchange, ApiResponse, QuoteSnapshot, HistoryElement
  * `app/database.py`  — QuoteTracker: extract_brlars_rate, save_snapshot,
                         get_latest_snapshot, get_snapshots_since, get_app_history
  * `app/utils.py`     — retry_with_backoff (sync/async wrapper loop, delay formula)
  * `app/rate_limiter.py` — InMemoryRateLimiter.is_allowed
  * `app/main.py`      — health_check handler

Conventions of the embedding:
  * Python floats are modelled as `ℚ` (the claims only use equality, ordering
    and field arithmetic, never rounding behaviour).
  * `datetime` values are modelled as `Int` epoch seconds; `timedelta(hours=h)`
    is `h * 3600` seconds.
  * The MongoDB collection is modelled as a list of stored documents in
    insertion order, each carrying the `_id` MongoDB generates; queries that
    sort by `timestamp` descending are modelled with a sort by that key.
  * Python dicts are modelled as association lists in insertion order.
  * A Python function that can raise is modelled with `Except` / sum types;
    state that the real code mutates (the collection, the limiter table) is
    passed and returned explicitly, and the wall clock is an explicit argument.
-/
import Mathlib

namespace PixHistorial

/-! ### Data model (`app/models.py`) -/

/-- Python `class Quote(BaseModel)`: one ask/bid pair for one currency pair. -/
structure Quote where
  symbol : String
  buy : ℚ
  sell : Option ℚ := none
  spread : Option ℚ := none
  spread_pct : Option ℚ := none
deriving DecidableEq, Repr

/-- Python `class Exchange(BaseModel)`: one provider's entry in the API response. -/
structure Exchange where
  quotes : List Quote
  logo : String
  url : String
  isPix : Bool
  hasFees : Option Bool := none
deriving DecidableEq, Repr

/-- The `ApiResponse` model: dict from provider name to `Exchange`, in insertion order. -/
abbrev ApiResponse : Type := List (String × Exchange)

/-- Python `class QuoteSnapshot(BaseModel)`: timestamp plus app-name → rate mapping. -/
structure QuoteSnapshot where
  timestamp : Int
  quotes : List (String × ℚ)
deriving DecidableEq, Repr

/-- Python `class HistoryElement(BaseModel)`: one provider's rate at one instant. -/
structure HistoryElement where
  timestamp : Int
  rate : ℚ
deriving DecidableEq, Repr

/-- A document as stored in the `snapshots` collection: the dumped
`QuoteSnapshot` plus the storage-internal `_id` MongoDB adds on insert. -/
structure StoredDoc where
  mongoId : Nat
  timestamp : Int
  quotes : List (String × ℚ)
deriving DecidableEq, Repr

/-- The state of the `snapshots` collection: documents in insertion order,
together with the next `_id` the store will generate. -/
structure Store where
  docs : List StoredDoc
  nextId : Nat
deriving DecidableEq, Repr

/-- Python dict membership/lookup `d[k]` on an association list (dict keys are
unique, so the first binding is the binding). -/
def lookupKey (k : String) : List (String × ℚ) → Option ℚ
  | [] => none
  | (k', v) :: rest => if k' = k then some v else lookupKey k rest

/-! ### Quote extraction (`app/database.py`, `extract_brlars_rate`) -/

/-- The `for quote in exchange.quotes` loop of `extract_brlars_rate`:
return the `buy` field of the first quote whose symbol is `"BRLARS"`. -/
def findBrlars : List Quote → Option ℚ
  | [] => none
  | q :: rest => if q.symbol = "BRLARS" then some q.buy else findBrlars rest

/-- Source `QuoteTracker.extract_brlars_rate` (`app/database.py` lines 51–56). -/
def extract_brlars_rate (exchange : Exchange) : Option ℚ :=
  findBrlars exchange.quotes

/-! ### save_snapshot (`app/database.py` lines 58–79) -/

/-- The extraction loop of `save_snapshot`: for each `(app_name, exchange)`
run `extract_brlars_rate`; the guard `if brlars_rate:` is Python truthiness,
so a rate that is `None` **or** `0.0` is skipped. -/
def extractQuotes : List (String × Exchange) → List (String × ℚ)
  | [] => []
  | (app_name, exchange) :: rest =>
    match extract_brlars_rate exchange with
    | some r => if r = 0 then extractQuotes rest else (app_name, r) :: extractQuotes rest
    | none => extractQuotes rest

/-- Source `QuoteTracker.save_snapshot`: extract rates, raise
`ValueError("No BRLARS quotes found in API response")` when the mapping is
empty, otherwise insert one document (timestamp defaulting to capture time
`now`) and return the generated id.  The error is raised **before**
`insert_one`, so the erroring branch returns no new store state. -/
def save_snapshot (store : Store) (now : Int) (api_data : ApiResponse) :
    Except String (Store × Nat) :=
  let quotes := extractQuotes api_data
  if quotes.isEmpty then
    Except.error "No BRLARS quotes found in API response"
  else
    Except.ok
      ({ docs := store.docs ++ [⟨store.nextId, now, quotes⟩],
         nextId := store.nextId + 1 },
       store.nextId)

/-! ### Store queries (`app/database.py` lines 81–120) -/

/-- The sort key used by every query: `sort=[("timestamp", DESCENDING)]`. -/
def tsGE (a b : StoredDoc) : Prop := b.timestamp ≤ a.timestamp

instance : DecidableRel tsGE := fun a b => Int.decLe b.timestamp a.timestamp

instance : IsTotal StoredDoc tsGE := ⟨fun a b => le_total b.timestamp a.timestamp⟩

instance : IsTrans StoredDoc tsGE := ⟨fun _ _ _ h1 h2 => le_trans h2 h1⟩

/-- The store returning the collection sorted newest-first. -/
def sortDocsDesc (docs : List StoredDoc) : List StoredDoc :=
  docs.insertionSort tsGE

/-- Dropping the storage-internal `_id` field: `doc.pop("_id", None)` /
the `{k: v for k, v in doc.items() if k != "_id"}` comprehension. -/
def toSnapshot (d : StoredDoc) : QuoteSnapshot :=
  ⟨d.timestamp, d.quotes⟩

/-- Source `QuoteTracker.get_latest_snapshot`: `find_one(sort=[("timestamp",
DESCENDING)])`, strip `_id`, or `None` on an empty collection. -/
def get_latest_snapshot (store : Store) : Option QuoteSnapshot :=
  match sortDocsDesc store.docs with
  | [] => none
  | d :: _ => some (toSnapshot d)

/-- Source `QuoteTracker.get_snapshots_since`: `find({"timestamp": {"$gte": since}},
sort=[("timestamp", DESCENDING)])`, stripping `_id` from each document.
The Python signature has **no** limit parameter and applies no cap. -/
def get_snapshots_since (store : Store) (since : Int) : List QuoteSnapshot :=
  (sortDocsDesc (store.docs.filter (fun d => since ≤ d.timestamp))).map toSnapshot

/-- Source `QuoteTracker.get_app_history`: `since = now - timedelta(hours=hours)`,
query `get_snapshots_since`, then keep `(snapshot.timestamp, rate)` for the
snapshots whose quotes dict contains `app_name`. -/
def get_app_history (store : Store) (now : Int) (app_name : String) (hours : Int) :
    List HistoryElement :=
  let since := now - hours * 3600
  let snapshots := get_snapshots_since store since
  snapshots.filterMap fun s =>
    (lookupKey app_name s.quotes).map fun r => ⟨s.timestamp, r⟩

/-! ### Rate limiter (`app/rate_limiter.py`) -/

/-- The two settings `is_allowed` reads: `settings.RATE_LIMIT_REQUESTS` and
`settings.RATE_LIMIT_WINDOW` (seconds). -/
structure RateLimitSettings where
  RATE_LIMIT_REQUESTS : Nat
  RATE_LIMIT_WINDOW : Int
deriving DecidableEq, Repr

/-- The limiter table `self.requests`: dict from client key to the list of request times. -/
abbrev RateLimitState : Type := List (String × List Int)

/-- Python dict lookup on the limiter table (a missing key was just
initialised to `[]` by `is_allowed`). -/
def lookupTimes (k : String) : RateLimitState → List Int
  | [] => []
  | (k', v) :: rest => if k' = k then v else lookupTimes k rest

/-- Python dict assignment `self.requests[key] = v`: replace the binding, or
append a new one. -/
def setTimes (k : String) (v : List Int) : RateLimitState → RateLimitState
  | [] => [(k, v)]
  | (k', v') :: rest =>
    if k' = k then (k, v) :: rest else (k', v') :: setTimes k v rest

/-- Source `InMemoryRateLimiter.is_allowed` (`app/rate_limiter.py` lines 17–37):
drop request times at or before `now - RATE_LIMIT_WINDOW`, deny when the
surviving count has reached `RATE_LIMIT_REQUESTS`, otherwise record `now`
and allow.  Both branches leave the pruned list in the table. -/
def is_allowed (cfg : RateLimitSettings) (state : RateLimitState)
    (key : String) (now : Int) : Bool × RateLimitState :=
  let window_start := now - cfg.RATE_LIMIT_WINDOW
  let recent := (lookupTimes key state).filter (fun t => window_start < t)
  if cfg.RATE_LIMIT_REQUESTS ≤ recent.length then
    (false, setTimes key recent state)
  else
    (true, setTimes key (recent ++ [now]) state)

/-- A sequence of `is_allowed` calls for one key at the given clock times,
returning the per-call verdicts and the final table. -/
def run_calls (cfg : RateLimitSettings) (key : String) :
    RateLimitState → List Int → List Bool × RateLimitState
  | state, [] => ([], state)
  | state, t :: rest =>
    let step := is_allowed cfg state key t
    let tail := run_calls cfg key step.2 rest
    (step.1 :: tail.1, tail.2)

/-! ### Retry wrapper (`app/utils.py`, `retry_with_backoff`) -/

/-- The decorator's parameters (`max_attempts`, `base_delay`, `max_delay`,
`backoff_factor`, `jitter`); the retryable-exception tuple is modelled by
the `retryable`/`fatal` split of `OpResult`. -/
structure RetryPolicy where
  max_attempts : Nat
  base_delay : ℚ
  max_delay : ℚ
  backoff_factor : ℚ
  jitter : Bool
deriving DecidableEq, Repr

/-- Outcome of one invocation of the wrapped function: a return value, an
exception in the decorator's `exceptions` tuple, or any other exception
(which the `except exceptions` clause does not catch). -/
inductive OpResult (α ε : Type) where
  | ok (a : α)
  | retryable (e : ε)
  | fatal (e : ε)
deriving DecidableEq, Repr

/-- What the wrapper does as a whole: return a value, let an exception
propagate, or hit the trailing `raise RuntimeError("Unexpected error in
retry mechanism")` (reachable only when the `for` loop body never runs). -/
inductive RetryOutcome (α ε : Type) where
  | value (a : α)
  | raised (e : ε)
  | runtimeError
deriving DecidableEq, Repr

/-- The delay computation of both wrappers (`app/utils.py` lines 88–94 and
50–56): `delay = min(base_delay * (backoff_factor**attempt), max_delay)`,
then `delay *= 0.5 + random.random() * 0.5` when jitter is on; `r` is the
`random.random()` draw, a uniform sample from `[0, 1)`. -/
def computeDelay (p : RetryPolicy) (attempt : Nat) (r : ℚ) : ℚ :=
  let delay := min (p.base_delay * p.backoff_factor ^ attempt) p.max_delay
  if p.jitter then delay * (1/2 + r * (1/2)) else delay

/-- The `for attempt in range(max_attempts)` loop shared by `sync_wrapper`
and `async_wrapper`.  `i` is the current attempt index, `fuel` the number of
loop iterations left (`fuel = max_attempts - i`); `op i` is the i-th
invocation of the wrapped function and `r i` the i-th jitter draw.  Returns
the outcome, the number of invocations performed, and the sleep delays in
order.  `attempt == max_attempts - 1` corresponds to `fuel = 1`: the last
failure is re-raised with no further sleep. -/
def retryLoop (p : RetryPolicy) (op : Nat → OpResult α ε) (r : Nat → ℚ) :
    Nat → Nat → RetryOutcome α ε × Nat × List ℚ
  | _, 0 => (RetryOutcome.runtimeError, 0, [])
  | i, fuel + 1 =>
    match op i with
    | OpResult.ok a => (RetryOutcome.value a, 1, [])
    | OpResult.fatal e => (RetryOutcome.raised e, 1, [])
    | OpResult.retryable e =>
      if fuel = 0 then
        (RetryOutcome.raised e, 1, [])
      else
        let rest := retryLoop p op r (i + 1) fuel
        (rest.1, rest.2.1 + 1, computeDelay p i (r i) :: rest.2.2)

/-- Source `sync_wrapper` (and identically `async_wrapper`): run the loop from
attempt 0 with `max_attempts` iterations available. -/
def sync_wrapper (p : RetryPolicy) (op : Nat → OpResult α ε) (r : Nat → ℚ) :
    RetryOutcome α ε × Nat × List ℚ :=
  retryLoop p op r 0 p.max_attempts

/-! ### Health endpoint (`app/main.py`, `health_check`) -/

/-- An exception escaping a store probe: the handler distinguishes
`QuoteServiceError` from any other `Exception`. -/
inductive ProbeError where
  | serviceError (msg : String)
  | other (msg : String)
deriving DecidableEq, Repr

/-- The response dict built by `health_check`; `uptime` is kept as the
number of elapsed seconds (`str(timedelta(...))` only formats it). -/
structure HealthResponse where
  status : String
  database : String
  last_update : Option Int
  timestamp : Int
  uptime : Int
  mongo_ping : String
deriving DecidableEq, Repr

/-- Source `health_check` (`app/main.py` lines 380–412).  The two probes are passed
as their outcomes: `latestResult` is what `tracker.get_latest_snapshot()`
did (value or exception), `pingResult` what `tracker.get_mongo_ping_time()`
did.  Every exception is caught inside the handler and routed into response
fields; note the `if mongo_ping` truthiness guard, which prints `"unknown"`
also for a ping of exactly 0. -/
def health_check (latestResult : Except ProbeError (Option QuoteSnapshot))
    (pingResult : Except ProbeError ℚ) (now appStart : Int) : HealthResponse :=
  let probe : String × Option Int :=
    match latestResult with
    | Except.ok latest =>
      ("connected", match latest with
        | some snap => some snap.timestamp
        | none => none)
    | Except.error (ProbeError.serviceError msg) =>
      ("service_error: " ++ msg, none)
    | Except.error (ProbeError.other msg) =>
      ("error: " ++ msg, none)
  let mongo_ping : Option ℚ :=
    match pingResult with
    | Except.ok p => some p
    | Except.error _ => none
  { status := if probe.1 = "connected" then "healthy" else "unhealthy"
    database := probe.1
    last_update := probe.2
    timestamp := now
    uptime := now - appStart
    mongo_ping :=
      match mongo_ping with
      | some p => if p = 0 then "unknown" else toString p ++ " ms"
      | none => "unknown" }

/-! ## Theorems

### C4 — extraction returns the first exact BRLARS match, else none -/

/-- Helper: `findBrlars` returns `some r` exactly when the list splits at a first
matching quote whose `buy` field is `r`, untouched. -/
theorem findBrlars_some_iff (l : List Quote) (r : ℚ) :
    findBrlars l = some r ↔
      ∃ l1 q l2, l = l1 ++ q :: l2 ∧ q.symbol = "BRLARS" ∧ q.buy = r ∧
        ∀ p ∈ l1, p.symbol ≠ "BRLARS" := by
  induction l with
  | nil =>
    simp [findBrlars]
  | cons q rest ih =>
    by_cases h : q.symbol = "BRLARS"
    · simp only [findBrlars, if_pos h]
      constructor
      · rintro hq
        exact ⟨[], q, rest, by simp, h, by simpa using hq, by simp⟩
      · rintro ⟨l1, q', l2, heq, hsym, hbuy, hfirst⟩
        cases l1 with
        | nil =>
          simp only [List.nil_append, List.cons.injEq] at heq
          rw [heq.1, hbuy]
        | cons a l1' =>
          simp only [List.cons_append, List.cons.injEq] at heq
          exact absurd (heq.1 ▸ h) (hfirst a (by simp))
    · simp only [findBrlars, if_neg h, ih]
      constructor
      · rintro ⟨l1, q', l2, heq, hsym, hbuy, hfirst⟩
        refine ⟨q :: l1, q', l2, by simp [heq], hsym, hbuy, ?_⟩
        intro p hp
        rcases List.mem_cons.mp hp with hp | hp
        · exact hp ▸ h
        · exact hfirst p hp
      · rintro ⟨l1, q', l2, heq, hsym, hbuy, hfirst⟩
        cases l1 with
        | nil =>
          simp only [List.nil_append, List.cons.injEq] at heq
          exact absurd (heq.1 ▸ h) (by simp [hsym])
        | cons a l1' =>
          simp only [List.cons_append, List.cons.injEq] at heq
          exact ⟨l1', q', l2, heq.2, hsym, hbuy, fun p hp => hfirst p (by simp [hp])⟩

/-- Helper: `findBrlars` returns `none` exactly when no quote carries the symbol. -/
theorem findBrlars_none_iff (l : List Quote) :
    findBrlars l = none ↔ ∀ q ∈ l, q.symbol ≠ "BRLARS" := by
  induction l with
  | nil => simp [findBrlars]
  | cons q rest ih =>
    by_cases h : q.symbol = "BRLARS" <;> simp [findBrlars, h, ih]

/-- C4: `extract_brlars_rate` scans the quotes list in stored order and
returns the raw `buy` field of the **first** quote whose symbol is exactly
`"BRLARS"` (no conversion: the result is that quote's `buy` field itself);
when no quote matches — including the empty list — it returns `none`. -/
theorem extract_brlars_rate_first_match (exchange : Exchange) :
    (extract_brlars_rate exchange = none ↔
        ∀ q ∈ exchange.quotes, q.symbol ≠ "BRLARS")
    ∧ ∀ r, extract_brlars_rate exchange = some r →
        ∃ l1 q l2, exchange.quotes = l1 ++ q :: l2 ∧ q.symbol = "BRLARS" ∧
          q.buy = r ∧ ∀ p ∈ l1, p.symbol ≠ "BRLARS" :=
  ⟨findBrlars_none_iff exchange.quotes,
   fun r h => (findBrlars_some_iff exchange.quotes r).mp h⟩

/-- A concrete exchange whose second quote is the first BRLARS entry. -/
def exchangeW : Exchange :=
  ⟨[⟨"BRLUSD", 2, none, none, none⟩, ⟨"BRLARS", 1850, none, none, none⟩],
   "logo", "url", true, none⟩

/-- Witness for C4 at a concrete exchange. -/
theorem extract_brlars_rate_first_match_witness :
    ∃ l1 q l2, exchangeW.quotes = l1 ++ q :: l2 ∧ q.symbol = "BRLARS" ∧
      q.buy = 1850 ∧ ∀ p ∈ l1, p.symbol ≠ "BRLARS" :=
  (extract_brlars_rate_first_match exchangeW).2 1850 (by decide)

/-! ### C1 — save_snapshot rejects empty extractions and never persists an
empty quotes mapping -/

/-- When every provider extracts to `None`, the accumulated dict is empty. -/
theorem extractQuotes_eq_nil_of_none (api : ApiResponse)
    (h : ∀ p ∈ api, extract_brlars_rate p.2 = none) : extractQuotes api = [] := by
  induction api with
  | nil => rfl
  | cons p rest ih =>
    obtain ⟨name, exchange⟩ := p
    have hhead := h (name, exchange) (List.mem_cons_self _ _)
    simp only [extractQuotes, hhead]
    exact ih fun q hq => h q (List.mem_cons_of_mem _ hq)

/-- C1: a payload whose providers yield zero extracted BRLARS rates makes
`save_snapshot` raise `ValueError("No BRLARS quotes found in API response")`
before any insert (the erroring branch returns no new store state), and any
successful `save_snapshot` only ever adds a document whose quotes mapping is
non-empty — so no snapshot with an empty quotes mapping is persisted. -/
theorem save_snapshot_rejects_empty (store : Store) (now : Int) (api : ApiResponse) :
    ((∀ p ∈ api, extract_brlars_rate p.2 = none) →
        save_snapshot store now api =
          Except.error "No BRLARS quotes found in API response")
    ∧ ∀ st' i, save_snapshot store now api = Except.ok (st', i) →
        ∀ d ∈ st'.docs, d ∈ store.docs ∨ d.quotes ≠ [] := by
  constructor
  · intro h
    simp [save_snapshot, extractQuotes_eq_nil_of_none api h]
  · intro st' i hok d hd
    by_cases hemp : (extractQuotes api).isEmpty
    · simp [save_snapshot, hemp] at hok
    · simp only [save_snapshot, hemp, if_neg, Bool.false_eq_true, not_false_iff,
        if_false, Except.ok.injEq, Prod.mk.injEq] at hok
      rw [← hok.1] at hd
      simp only [List.mem_append, List.mem_singleton] at hd
      rcases hd with hd | hd
      · exact Or.inl hd
      · right
        rw [hd]
        simpa [List.isEmpty_iff] using hemp

/-- A payload with no BRLARS quote anywhere. -/
def apiNoBrlars : ApiResponse :=
  [("app1", ⟨[⟨"BRLUSD", 2, none, none, none⟩], "logo", "url", true, none⟩),
   ("app2", ⟨[], "logo", "url", false, none⟩)]

/-- Witness for C1: the no-BRLARS payload is rejected on a concrete store. -/
theorem save_snapshot_rejects_empty_witness :
    save_snapshot ⟨[], 0⟩ 1000 apiNoBrlars =
      Except.error "No BRLARS quotes found in API response" :=
  (save_snapshot_rejects_empty ⟨[], 0⟩ 1000 apiNoBrlars).1 (by decide)

/-! ### C10 — a 0.0 rate is truthiness-filtered out of the snapshot -/

/-- A key absent from an association list looks up to `none`. -/
theorem lookupKey_eq_none_of_not_mem (name : String) (l : List (String × ℚ))
    (h : name ∉ l.map Prod.fst) : lookupKey name l = none := by
  induction l with
  | nil => rfl
  | cons p rest ih =>
    simp only [List.map_cons, List.mem_cons] at h
    push_neg at h
    simp only [lookupKey, if_neg (Ne.symm h.1)]
    exact ih h.2

/-- Every key of the extracted mapping is a key of the payload. -/
theorem extractQuotes_keys_subset (api : ApiResponse) :
    (extractQuotes api).map Prod.fst ⊆ api.map Prod.fst := by
  induction api with
  | nil => simp [extractQuotes]
  | cons p rest ih =>
    obtain ⟨name, exchange⟩ := p
    simp only [extractQuotes]
    cases hx : extract_brlars_rate exchange with
    | none =>
      exact fun a ha => List.mem_cons_of_mem _ (ih ha)
    | some r =>
      by_cases hr : r = 0
      · simp only [if_pos hr]
        exact fun a ha => List.mem_cons_of_mem _ (ih ha)
      · simp only [if_neg hr, List.map_cons]
        intro a ha
        rcases List.mem_cons.mp ha with ha | ha
        · exact ha ▸ List.mem_cons_self _ _
        · exact List.mem_cons_of_mem _ (ih ha)

/-- When every provider's BRLARS rate extracts to exactly 0, the truthiness
guard skips them all and the accumulated dict is empty. -/
theorem extractQuotes_eq_nil_of_zero (api : ApiResponse)
    (h : ∀ p ∈ api, extract_brlars_rate p.2 = some 0) : extractQuotes api = [] := by
  induction api with
  | nil => rfl
  | cons p rest ih =>
    obtain ⟨name, exchange⟩ := p
    have hhead := h (name, exchange) (List.mem_cons_self _ _)
    simp only [extractQuotes, hhead, if_pos rfl]
    exact ih fun q hq => h q (List.mem_cons_of_mem _ hq)

/-- C10 (implicit): `save_snapshot` tests the extracted rate for Python
truthiness (`if brlars_rate:`), not for presence, so a provider whose
extracted BRLARS rate is exactly 0.0 is omitted from the persisted quotes
mapping; consequently a payload in which **every** provider's BRLARS buy
value is 0.0 is rejected with the no-quotes-found `ValueError` even though
matching quotes exist. -/
theorem zero_rate_omitted (store : Store) (now : Int) (api : ApiResponse)
    (hnodup : (api.map Prod.fst).Nodup) :
    (∀ name exchange, (name, exchange) ∈ api →
        extract_brlars_rate exchange = some 0 →
        lookupKey name (extractQuotes api) = none)
    ∧ ((∀ p ∈ api, extract_brlars_rate p.2 = some 0) →
        save_snapshot store now api =
          Except.error "No BRLARS quotes found in API response") := by
  constructor
  · intro name exchange hmem hzero
    induction api with
    | nil => cases hmem
    | cons p rest ih =>
      obtain ⟨n, ex⟩ := p
      simp only [List.map_cons, List.nodup_cons] at hnodup
      rcases List.mem_cons.mp hmem with hm | hm
      · obtain ⟨hn, hex⟩ := Prod.mk.injEq .. ▸ hm
        apply lookupKey_eq_none_of_not_mem
        intro hcontra
        have hsub := extractQuotes_keys_subset ((n, ex) :: rest) hcontra
        simp only [extractQuotes, ← hex, hzero, if_pos rfl] at hcontra
        exact absurd (hn ▸ extractQuotes_keys_subset rest hcontra) hnodup.1
      · have hrest := ih hnodup.2 hm
        have hne : n ≠ name := by
          intro hcontra
          exact hnodup.1 (hcontra ▸ List.mem_map.mpr ⟨(name, exchange), hm, rfl⟩)
        simp only [extractQuotes]
        cases hx : extract_brlars_rate ex with
        | none => exact hrest
        | some r =>
          by_cases hr : r = 0
          · simp only [if_pos hr]
            exact hrest
          · simp only [if_neg hr, lookupKey, if_neg hne]
            exact hrest
  · intro h
    simp [save_snapshot, extractQuotes_eq_nil_of_zero api h]

/-- A payload whose only provider has a BRLARS quote with `buy == 0.0`. -/
def apiZeroRate : ApiResponse :=
  [("app1", ⟨[⟨"BRLARS", 0, none, none, none⟩], "logo", "url", true, none⟩)]

/-- Witness for C10: the all-zero payload is rejected even though a matching
BRLARS quote exists. -/
theorem zero_rate_omitted_witness :
    lookupKey "app1" (extractQuotes apiZeroRate) = none
    ∧ save_snapshot ⟨[], 0⟩ 7 apiZeroRate =
        Except.error "No BRLARS quotes found in API response" :=
  ⟨(zero_rate_omitted ⟨[], 0⟩ 7 apiZeroRate (by decide)).1 "app1"
      ⟨[⟨"BRLARS", 0, none, none, none⟩], "logo", "url", true, none⟩
      (by decide) (by decide),
   (zero_rate_omitted ⟨[], 0⟩ 7 apiZeroRate (by decide)).2 (by decide)⟩

/-! ### C5 — get_latest_snapshot after a successful save_snapshot -/

/-- Sorting newest-first puts a document with strictly maximal timestamp at
the head, wherever it sits in the collection. -/
theorem sortDocsDesc_append_max (l : List StoredDoc) (d : StoredDoc)
    (h : ∀ x ∈ l, x.timestamp < d.timestamp) :
    ∃ t, sortDocsDesc (l ++ [d]) = d :: t := by
  have hperm : List.Perm (sortDocsDesc (l ++ [d])) (l ++ [d]) :=
    List.perm_insertionSort tsGE (l ++ [d])
  have hsort : List.Sorted tsGE (sortDocsDesc (l ++ [d])) :=
    List.sorted_insertionSort tsGE (l ++ [d])
  have hdmem : d ∈ sortDocsDesc (l ++ [d]) :=
    hperm.mem_iff.mpr (by simp)
  cases hs : sortDocsDesc (l ++ [d]) with
  | nil =>
    rw [hs] at hdmem
    cases hdmem
  | cons h0 t =>
    rw [hs] at hperm hsort hdmem
    by_cases hd : h0 = d
    · exact ⟨t, by rw [hd]⟩
    · exfalso
      have hh0 : h0 ∈ l ++ [d] := hperm.subset (List.mem_cons_self _ _)
      have hh0l : h0 ∈ l := by
        rcases List.mem_append.mp hh0 with hm | hm
        · exact hm
        · exact absurd (List.mem_singleton.mp hm) hd
      have hdt : d ∈ t := by
        rcases List.mem_cons.mp hdmem with hm | hm
        · exact absurd hm.symm hd
        · exact hm
      have hle : d.timestamp ≤ h0.timestamp :=
        List.rel_of_sorted_cons hsort d hdt
      exact absurd (h h0 hh0l) (not_lt.mpr hle)

/-- C5: when `save_snapshot` succeeds on a store whose existing documents
all carry an earlier capture time, a subsequent `get_latest_snapshot` (no
intervening writes) returns exactly the timestamp and quotes mapping just
inserted — the returned `QuoteSnapshot` is rebuilt after `doc.pop("_id")`,
so no storage-internal identifier leaks through — and on an empty
collection `get_latest_snapshot` returns `None`. -/
theorem latest_after_save (store : Store) (now : Int) (api : ApiResponse)
    (st' : Store) (newId : Nat)
    (hold : ∀ d ∈ store.docs, d.timestamp < now)
    (hsave : save_snapshot store now api = Except.ok (st', newId)) :
    get_latest_snapshot st' = some ⟨now, extractQuotes api⟩
    ∧ ∀ n, get_latest_snapshot ⟨[], n⟩ = none := by
  constructor
  · by_cases hemp : (extractQuotes api).isEmpty
    · simp [save_snapshot, hemp] at hsave
    · simp only [save_snapshot, hemp, Bool.false_eq_true, if_false,
        Except.ok.injEq, Prod.mk.injEq] at hsave
      obtain ⟨t, ht⟩ :=
        sortDocsDesc_append_max store.docs ⟨store.nextId, now, extractQuotes api⟩
          (fun x hx => hold x hx)
      rw [← hsave.1]
      simp [get_latest_snapshot, ht, toSnapshot]
  · intro n
    rfl

/-- A payload with a single provider carrying one BRLARS quote. -/
def apiOne : ApiResponse :=
  [("app1", ⟨[⟨"BRLARS", 1850, none, none, none⟩], "logo", "url", true, none⟩)]

/-- Witness for C5: saving `apiOne` into an empty store and reading back. -/
theorem latest_after_save_witness :
    get_latest_snapshot ⟨[⟨0, 5, [("app1", 1850)]⟩], 1⟩ =
      some ⟨5, extractQuotes apiOne⟩ :=
  (latest_after_save ⟨[], 0⟩ 5 apiOne ⟨[⟨0, 5, [("app1", 1850)]⟩], 1⟩ 0
      (by simp) rfl).1

/-! ### C2 — get_snapshots_since: exact window, newest-first, but no cap -/

/-- C2 (amended): `get_snapshots_since` returns exactly the stored snapshots
whose timestamp is ≥ `since` (as a permutation of the filtered collection,
each with `_id` stripped), ordered newest-first; the Python signature has no
`limit` parameter and the result is **not** capped. -/
theorem snapshots_since_exact (store : Store) (since : Int) :
    List.Sorted (fun a b : QuoteSnapshot => b.timestamp ≤ a.timestamp)
      (get_snapshots_since store since)
    ∧ List.Perm (get_snapshots_since store since)
        ((store.docs.filter (fun d => since ≤ d.timestamp)).map toSnapshot) := by
  constructor
  · have hsort : List.Sorted tsGE
        (sortDocsDesc (store.docs.filter (fun d => since ≤ d.timestamp))) :=
      List.sorted_insertionSort tsGE _
    exact hsort.map toSnapshot (fun a b hab => hab)
  · exact (List.perm_insertionSort tsGE _).map toSnapshot

/-- A store holding 101 documents, all with timestamp ≥ 0. -/
def store101 : Store :=
  ⟨(List.range 101).map (fun i => ⟨i, (i : Int), [("a", 1)]⟩), 101⟩

/-- Counterexample to C2 as stated: the claimed default cap of 100 does not
exist — on a collection of 101 matching documents, `get_snapshots_since`
returns all 101 snapshots (there is no `limit` parameter in the code). -/
theorem snapshots_since_no_cap_counterexample :
    (get_snapshots_since store101 0).length = 101 := by
  decide

/-! ### C6 — get_app_history and the moving clock -/

/-- A store holding one snapshot for `app1`, captured at time 0. -/
def storeC6 : Store := ⟨[⟨0, 0, [("app1", 5)]⟩], 1⟩

/-- Counterexample to C6 as stated: `get_app_history` recomputes
`since = now - timedelta(hours=hours)` from the wall clock on every call, so
two calls with **no** intervening writes can differ — here the second call
happens after the only snapshot has left the 1-hour window. -/
theorem history_not_idempotent_counterexample :
    get_app_history storeC6 3600 "app1" 1 = [⟨0, 5⟩]
    ∧ get_app_history storeC6 7201 "app1" 1 = []
    ∧ get_app_history storeC6 3600 "app1" 1 ≠ get_app_history storeC6 7201 "app1" 1 := by
  refine ⟨by decide, by decide, by decide⟩

/-- C6 (amended): `get_app_history(app, h)` is a deterministic function of
the store and the current clock: two calls with no intervening writes return
identical lists whenever no stored snapshot's timestamp separates the two
computed window starts — in particular whenever the calls observe the same
clock time.  (Unamended idempotence fails because `since = now - hours` moves
with the clock.) -/
theorem history_deterministic (store : Store) (app_name : String) (hours : Int)
    (now1 now2 : Int)
    (h : ∀ d ∈ store.docs,
        (now1 - hours * 3600 ≤ d.timestamp ↔ now2 - hours * 3600 ≤ d.timestamp)) :
    get_app_history store now1 app_name hours =
      get_app_history store now2 app_name hours := by
  have hfilter : store.docs.filter (fun d => now1 - hours * 3600 ≤ d.timestamp)
      = store.docs.filter (fun d => now2 - hours * 3600 ≤ d.timestamp) := by
    apply List.filter_congr
    intro d hd
    simpa [decide_eq_decide] using h d hd
  simp only [get_app_history, get_snapshots_since, sortDocsDesc, hfilter]

/-- Witness for C6: two calls ten minutes apart whose windows retain the
same snapshots agree. -/
theorem history_deterministic_witness :
    get_app_history storeC6 3000 "app1" 1 = get_app_history storeC6 3600 "app1" 1 :=
  history_deterministic storeC6 "app1" 1 3000 3600 (by decide)

/-! ### C3 — retry wrapper: invocation counts and the re-raised failure -/

/-- Loop lemma, success case: `k` retryable failures starting at attempt `i`
followed by a success, with `k` strictly below the remaining iterations,
yield the success value after exactly `k + 1` invocations. -/
theorem retryLoop_success (p : RetryPolicy) (op : Nat → OpResult α ε) (r : Nat → ℚ) :
    ∀ fuel i k, k < fuel →
      (∀ j, j < k → ∃ e, op (i + j) = OpResult.retryable e) →
      ∀ v, op (i + k) = OpResult.ok v →
      (retryLoop p op r i fuel).1 = RetryOutcome.value v
      ∧ (retryLoop p op r i fuel).2.1 = k + 1 := by
  intro fuel
  induction fuel with
  | zero =>
    intro i k hk
    exact absurd hk (Nat.not_lt_zero k)
  | succ fuel ih =>
    intro i k hk hfail v hok
    cases k with
    | zero =>
      rw [Nat.add_zero] at hok
      simp [retryLoop, hok]
    | succ k' =>
      obtain ⟨e, he⟩ := hfail 0 (Nat.succ_pos k')
      rw [Nat.add_zero] at he
      have hfuel : fuel ≠ 0 := by omega
      have hrest := ih (i + 1) k' (by omega)
        (fun j hj => by
          have := hfail (j + 1) (by omega)
          rwa [show i + (j + 1) = i + 1 + j by omega] at this)
        v (by rwa [show i + 1 + k' = i + (k' + 1) by omega])
      simp only [retryLoop, he, if_neg hfuel]
      exact ⟨hrest.1, by rw [hrest.2]⟩

/-- Loop lemma, exhaustion case: when every remaining attempt fails with a
retryable exception, the loop re-raises the failure of the **last** attempt
after exactly `fuel` invocations. -/
theorem retryLoop_exhausted (p : RetryPolicy) (op : Nat → OpResult α ε) (r : Nat → ℚ) :
    ∀ fuel i, 1 ≤ fuel →
      (∀ j, j < fuel → ∃ e, op (i + j) = OpResult.retryable e) →
      ∃ e, op (i + (fuel - 1)) = OpResult.retryable e
        ∧ (retryLoop p op r i fuel).1 = RetryOutcome.raised e
        ∧ (retryLoop p op r i fuel).2.1 = fuel := by
  intro fuel
  induction fuel with
  | zero =>
    intro i h1
    exact absurd h1 (by omega)
  | succ fuel ih =>
    intro i _ hfail
    cases Nat.eq_zero_or_pos fuel with
    | inl hz =>
      subst hz
      obtain ⟨e, he⟩ := hfail 0 Nat.one_pos
      rw [Nat.add_zero] at he
      exact ⟨e, by simpa using he, by simp [retryLoop, he], by simp [retryLoop, he]⟩
    | inr hpos =>
      obtain ⟨e0, he0⟩ := hfail 0 (by omega)
      rw [Nat.add_zero] at he0
      obtain ⟨e, he, hout, hcount⟩ := ih (i + 1) hpos
        (fun j hj => by
          have := hfail (j + 1) (by omega)
          rwa [show i + (j + 1) = i + 1 + j by omega] at this)
      have hfuel : fuel ≠ 0 := by omega
      refine ⟨e, ?_, ?_, ?_⟩
      · rwa [show i + (fuel + 1 - 1) = i + 1 + (fuel - 1) by omega]
      · simp only [retryLoop, he0, if_neg hfuel]
        exact hout
      · simp only [retryLoop, he0, if_neg hfuel]
        omega

/-- C3: for a wrapped operation under `retry_with_backoff` with
`max_attempts ≥ 1`: `k < max_attempts` retryable failures followed by a
success return the success value with exactly `k + 1` invocations;
`max_attempts` straight retryable failures re-raise the failure of the last
attempt with exactly `max_attempts` invocations. -/
theorem retry_invocation_counts (p : RetryPolicy) (op : Nat → OpResult α ε)
    (r : Nat → ℚ) :
    (∀ k v, k < p.max_attempts →
        (∀ j, j < k → ∃ e, op j = OpResult.retryable e) →
        op k = OpResult.ok v →
        (sync_wrapper p op r).1 = RetryOutcome.value v
        ∧ (sync_wrapper p op r).2.1 = k + 1)
    ∧ (1 ≤ p.max_attempts →
        (∀ j, j < p.max_attempts → ∃ e, op j = OpResult.retryable e) →
        ∃ e, op (p.max_attempts - 1) = OpResult.retryable e
          ∧ (sync_wrapper p op r).1 = RetryOutcome.raised e
          ∧ (sync_wrapper p op r).2.1 = p.max_attempts) := by
  constructor
  · intro k v hk hfail hok
    exact retryLoop_success p op r p.max_attempts 0 k hk
      (fun j hj => by simpa using hfail j hj) v (by simpa using hok)
  · intro h1 hfail
    have := retryLoop_exhausted p op r p.max_attempts 0 h1
      (fun j hj => by simpa using hfail j hj)
    simpa using this

/-- A concrete wrapped operation: fails once retryably, then returns 7. -/
def opW : Nat → OpResult Nat String
  | 0 => OpResult.retryable "boom"
  | _ + 1 => OpResult.ok 7

/-- The network retry profile (`RetryConfig.NETWORK_RETRY`), jitter off for
the witness run. -/
def policyW : RetryPolicy := ⟨3, 1, 10, 2, false⟩

/-- Witness for C3: one failure then success under `max_attempts = 3`
returns the value with exactly two invocations. -/
theorem retry_invocation_counts_witness :
    (sync_wrapper policyW opW (fun _ => 0)).1 = RetryOutcome.value 7
    ∧ (sync_wrapper policyW opW (fun _ => 0)).2.1 = 2 :=
  (retry_invocation_counts policyW opW (fun _ => 0)).1 1 7 (by decide)
    (fun j hj => ⟨"boom", by
      have hj0 : j = 0 := by omega
      rw [hj0]
      rfl⟩)
    rfl

/-! ### C8 — the backoff delay formula -/

/-- C8: the delay computed before attempt `i + 1` equals
`min(base_delay * backoff_factor^i, max_delay)`; when jitter is enabled the
code multiplies it by `0.5 + random.random() * 0.5`, a uniform factor in the
half-open interval `[0.5, 1.0)` (with `r = random.random() ∈ [0, 1)`). -/
theorem delay_formula (p : RetryPolicy) (i : Nat) (r : ℚ)
    (h0 : 0 ≤ r) (h1 : r < 1) :
    (p.jitter = false →
        computeDelay p i r = min (p.base_delay * p.backoff_factor ^ i) p.max_delay)
    ∧ (p.jitter = true →
        ∃ u, 1/2 ≤ u ∧ u < 1
          ∧ computeDelay p i r
              = min (p.base_delay * p.backoff_factor ^ i) p.max_delay * u) := by
  constructor
  · intro hj
    simp [computeDelay, hj]
  · intro hj
    refine ⟨1/2 + r * (1/2), by linarith, by linarith, ?_⟩
    simp [computeDelay, hj]

/-- Witness for C8: with jitter on and `random.random() = 1/2` the delay is
the capped exponential times a factor in `[0.5, 1)`. -/
theorem delay_formula_witness :
    ∃ u, 1/2 ≤ u ∧ u < 1
      ∧ computeDelay ⟨3, 1, 10, 2, true⟩ 2 (1/2)
          = min ((1 : ℚ) * 2 ^ 2) 10 * u :=
  (delay_formula ⟨3, 1, 10, 2, true⟩ 2 (1/2) (by norm_num) (by norm_num)).2 rfl

/-! ### C7 — rate limiter: 100 allowed, the 101st denied, allowed again
after the window -/

/-- The configuration of the claim: a budget of 100 requests per 60-second
window (`settings.RATE_LIMIT_REQUESTS = 100`, `settings.RATE_LIMIT_WINDOW = 60`). -/
def cfg100 : RateLimitSettings := ⟨100, 60⟩

/-- C7: starting from an empty table, 101 `is_allowed` calls for one key all
inside one window return `true` for calls 1–100 and `false` for call 101;
a 102nd call after the window has expired (61 s later here) returns `true`
again. -/
theorem rate_limit_scenario :
    (run_calls cfg100 "k" [] (List.replicate 101 0)).1
      = List.replicate 100 true ++ [false]
    ∧ (is_allowed cfg100 (run_calls cfg100 "k" [] (List.replicate 101 0)).2
        "k" 61).1 = true := by
  refine ⟨by decide, by decide⟩

/-! ### C9 — the health endpoint never raises outward -/

/-- C9: `health_check` is a total function of the two probe outcomes — every
exception either probe raises is caught inside the handler — and failures
are reported only through response fields: the status is always exactly
`"healthy"` or `"unhealthy"`; it is `"healthy"` precisely when
`get_latest_snapshot` returned (even `None`); a failing snapshot probe
yields `"unhealthy"` with the error message in the `database` field; a
failing store ping only turns `mongo_ping` into `"unknown"`. -/
theorem health_never_raises (latestResult : Except ProbeError (Option QuoteSnapshot))
    (pingResult : Except ProbeError ℚ) (now appStart : Int) :
    ((health_check latestResult pingResult now appStart).status = "healthy"
      ∨ (health_check latestResult pingResult now appStart).status = "unhealthy")
    ∧ ((health_check latestResult pingResult now appStart).status = "healthy"
        ↔ ∃ l, latestResult = Except.ok l)
    ∧ (∀ e, latestResult = Except.error e →
        (health_check latestResult pingResult now appStart).status = "unhealthy"
        ∧ (health_check latestResult pingResult now appStart).database ≠ "connected")
    ∧ (∀ e, pingResult = Except.error e →
        (health_check latestResult pingResult now appStart).mongo_ping = "unknown") := by
  have hserv : ∀ msg, "service_error: " ++ msg ≠ "connected" := by
    intro msg hcontra
    have hlen := congrArg String.length hcontra
    rw [String.length_append] at hlen
    have h1 : ("service_error: " : String).length = 15 := rfl
    have h2 : ("connected" : String).length = 9 := rfl
    omega
  have herr : ∀ msg, "error: " ++ msg ≠ "connected" := by
    intro msg hcontra
    have hdata := congrArg String.data hcontra
    rw [String.data_append] at hdata
    have h1 : ("error: " : String).data = ['e', 'r', 'r', 'o', 'r', ':', ' '] := rfl
    have h2 : ("connected" : String).data
        = ['c', 'o', 'n', 'n', 'e', 'c', 't', 'e', 'd'] := rfl
    rw [h1, h2] at hdata
    simp only [List.cons_append, List.cons.injEq] at hdata
    exact absurd hdata.1 (by decide)
  refine ⟨?_, ?_, ?_, ?_⟩
  · cases latestResult with
    | ok l => left; rfl
    | error e =>
      cases e with
      | serviceError msg => right; simp [health_check, hserv msg]
      | other msg => right; simp [health_check, herr msg]
  · cases latestResult with
    | ok l =>
      simp only [health_check]
      exact ⟨fun _ => ⟨l, rfl⟩, fun _ => rfl⟩
    | error e =>
      cases e with
      | serviceError msg =>
        simp [health_check, hserv msg]
      | other msg =>
        simp [health_check, herr msg]
  · intro e he
    subst he
    cases e with
    | serviceError msg =>
      exact ⟨by simp [health_check, hserv msg], by simp [health_check, hserv msg]⟩
    | other msg =>
      exact ⟨by simp [health_check, herr msg], by simp [health_check, herr msg]⟩
  · intro e he
    subst he
    cases latestResult with
    | ok l => rfl
    | error e' => cases e' with
      | serviceError msg => rfl
      | other msg => rfl

/-- Witness for C9: both probes raising still produces a plain response. -/
theorem health_never_raises_witness :
    (health_check (Except.error (ProbeError.other "boom"))
        (Except.error (ProbeError.serviceError "down")) 5 0).status = "unhealthy"
    ∧ (health_check (Except.error (ProbeError.other "boom"))
        (Except.error (ProbeError.serviceError "down")) 5 0).mongo_ping = "unknown" :=
  ⟨((health_never_raises (Except.error (ProbeError.other "boom"))
      (Except.error (ProbeError.serviceError "down")) 5 0).2.2.1
      (ProbeError.other "boom") rfl).1,
   (health_never_raises (Except.error (ProbeError.other "boom"))
      (Except.error (ProbeError.serviceError "down")) 5 0).2.2.2
      (ProbeError.serviceError "down") rfl⟩

end PixHistorial
